import Mathlib

/-
Verification of the blackroad-automation-hub rule engine (src/automation_hub.py).

The Python module is shallowly embedded: dynamic Python values become the
inductive `PyVal`; the SQLite-backed hub becomes an explicit `HubState`
record (rules table, executions table, logs table, service-handler registry,
and a logical clock standing for `datetime.utcnow()`); methods that can raise
return `Except String`.
-/

set_option maxHeartbeats 1000000

namespace AutomationHub

/-- Dynamic Python values appearing in contexts, condition values and action
parameters.  Python booleans are embedded as integers (True = 1), matching
Python where `bool` is a subtype of `int`; floats in the examples are
integral and embedded as integers. -/
inductive PyVal where
  | none : PyVal
  | int : Int → PyVal
  | str : String → PyVal
  | list : List PyVal → PyVal
  | dict : List (String × PyVal) → PyVal

/-- A Python dict with string keys (contexts, configs, params). -/
abbrev Dict := List (String × PyVal)

/-- Python `d.get(k)`: the stored value, or `None` when the key is absent. -/
def dictGet (d : Dict) (k : String) : PyVal :=
  match d.find? (fun kv => kv.1 == k) with
  | some kv => kv.2
  | Option.none => PyVal.none

/-- Python `d.get(k, dflt)`. -/
def dictGetD (d : Dict) (k : String) (dflt : PyVal) : PyVal :=
  match d.find? (fun kv => kv.1 == k) with
  | some kv => kv.2
  | Option.none => dflt

mutual

/-- Python `==` on embedded values (structural equality). -/
def pyEq : PyVal → PyVal → Bool
  | PyVal.none, PyVal.none => true
  | PyVal.int a, PyVal.int b => a == b
  | PyVal.str a, PyVal.str b => a == b
  | PyVal.list xs, PyVal.list ys => pyEqList xs ys
  | PyVal.dict xs, PyVal.dict ys => pyEqDict xs ys
  | _, _ => false

def pyEqList : List PyVal → List PyVal → Bool
  | [], [] => true
  | x :: xs, y :: ys => pyEq x y && pyEqList xs ys
  | _, _ => false

def pyEqDict : List (String × PyVal) → List (String × PyVal) → Bool
  | [], [] => true
  | (k, v) :: xs, (k2, v2) :: ys => k == k2 && pyEq v v2 && pyEqDict xs ys
  | _, _ => false

end

mutual

/-- Python `<` on embedded values: defined for int/int, str/str and
list/list (lexicographic); other combinations raise `TypeError`. -/
def pyLt : PyVal → PyVal → Except String Bool
  | PyVal.int a, PyVal.int b => Except.ok (decide (a < b))
  | PyVal.str a, PyVal.str b => Except.ok (decide (a < b))
  | PyVal.list xs, PyVal.list ys => pyLtList xs ys
  | _, _ => Except.error "TypeError: unorderable types"

def pyLtList : List PyVal → List PyVal → Except String Bool
  | [], [] => Except.ok false
  | [], _ :: _ => Except.ok true
  | _ :: _, [] => Except.ok false
  | x :: xs, y :: ys => if pyEq x y then pyLtList xs ys else pyLt x y

end

/-- Python `<=` (for the totally ordered comparable types, `a <= b` is
`a == b or a < b`). -/
def pyLe (a b : PyVal) : Except String Bool :=
  if pyEq a b then Except.ok true else pyLt a b

/-- Python substring test `needle in hay`. -/
def strContainsSub (hay needle : String) : Bool :=
  (hay.data.tails).any (fun suf => needle.data.isPrefixOf suf)

/-- Python membership `a in b`: list membership, substring test, or dict key
membership; raises `TypeError` on non-containers. -/
def pyIn (a b : PyVal) : Except String Bool :=
  match b with
  | PyVal.list ys => Except.ok (ys.any (fun y => pyEq a y))
  | PyVal.str s =>
    match a with
    | PyVal.str t => Except.ok (strContainsSub s t)
    | _ => Except.error "TypeError: in requires string as left operand"
  | PyVal.dict d =>
    match a with
    | PyVal.str k => Except.ok (d.any (fun kv => kv.1 == k))
    | _ => Except.ok false
  | _ => Except.error "TypeError: argument is not iterable"

mutual

/-- Python `repr` of an embedded value (string quoting elided: the exact
rendered text of nested values is not load-bearing for any claim). -/
def pyRepr : PyVal → String
  | PyVal.none => "None"
  | PyVal.int n => toString n
  | PyVal.str s => s
  | PyVal.list xs => "[" ++ pyReprList xs ++ "]"
  | PyVal.dict d => "\x7b" ++ pyReprDict d ++ "\x7d"

def pyReprList : List PyVal → String
  | [] => ""
  | [x] => pyRepr x
  | x :: y :: xs => pyRepr x ++ ", " ++ pyReprList (y :: xs)

def pyReprDict : List (String × PyVal) → String
  | [] => ""
  | [(k, v)] => k ++ ": " ++ pyRepr v
  | (k, v) :: e :: xs => k ++ ": " ++ pyRepr v ++ ", " ++ pyReprDict (e :: xs)

end

/-- Python `str` of an embedded value (as interpolated by f-strings). -/
def pyStr : PyVal → String
  | PyVal.str s => s
  | v => pyRepr v

/-- `_OP_MAP` from the source: operator string to binary predicate.  Each
predicate may raise (`Except.error`) the way the Python operator can. -/
def _OP_MAP : String → Option (PyVal → PyVal → Except String Bool)
  | "==" => some (fun a b => Except.ok (pyEq a b))
  | "!=" => some (fun a b => Except.ok (!(pyEq a b)))
  | ">"  => some (fun a b => pyLt b a)
  | ">=" => some (fun a b => pyLe b a)
  | "<"  => some (fun a b => pyLt a b)
  | "<=" => some (fun a b => pyLe a b)
  | "in" => some (fun a b => pyIn a b)
  | "contains" => some (fun a b => pyIn b a)
  | _ => Option.none

/-- Split a character list at every dot (`"a.b".split(".") = ["a","b"]`,
`"".split(".") = [""]`). -/
def splitDot : List Char → List (List Char)
  | [] => [[]]
  | c :: rest =>
    match splitDot rest with
    | [] => [[]]
    | h :: t => if c = '.' then [] :: h :: t else (c :: h) :: t

/-- Python `path.split(".")`. -/
def pathParts (path : String) : List String :=
  (splitDot path.data).map (fun cs => String.mk cs)

/-- `_resolve_path`'s loop: walk the parts; a non-dict intermediate value
returns `None`; an absent key makes `dict.get` return `None`. -/
def resolveParts : List String → PyVal → PyVal
  | [], v => v
  | part :: rest, PyVal.dict d => resolveParts rest (dictGet d part)
  | _ :: _, _ => PyVal.none

/-- `_resolve_path(path, context)`: resolve a dot-separated path in a nested
dict. -/
def _resolve_path (path : String) (context : Dict) : PyVal :=
  resolveParts (pathParts path) (PyVal.dict context)

/-- The `Condition` dataclass. -/
structure Condition where
  field : String
  op : String
  value : PyVal
  negate : Bool := false

/-- `Condition.evaluate`: a missing (None) resolved value returns `negate`;
an unrecognized operator raises `ValueError`; otherwise the operator result,
inverted when `negate` is set. -/
def Condition.evaluate (c : Condition) (context : Dict) : Except String Bool :=
  match _resolve_path c.field context with
  | PyVal.none => Except.ok c.negate
  | actual =>
    match _OP_MAP c.op with
    | Option.none => Except.error ("Unknown condition operator: " ++ c.op)
    | some fn =>
      match fn actual c.value with
      | Except.error e => Except.error e
      | Except.ok result => Except.ok (if c.negate then !result else result)

/-- The `Trigger` dataclass: a `TriggerType` value and an opaque config. -/
structure Trigger where
  type : String
  config : Dict := []

/-- The `Action` dataclass. -/
structure Action where
  type : String
  target : Option String := Option.none
  params : Dict := []

/-- The `Rule` dataclass.  Timestamps (ISO strings from `datetime.utcnow()`
in Python) are modelled as values of the hub's logical clock. -/
structure Rule where
  name : String
  trigger : Trigger
  conditions : List Condition := []
  actions : List Action := []
  enabled : Bool := true
  priority : Int := 0
  description : String := ""
  created_at : Nat := 0
  last_triggered : Option Nat := Option.none
  trigger_count : Int := 0

/-- A structured rule document (the parse of a JSON rule definition): each
schema key may be absent. -/
structure TriggerDoc where
  type : Option String
  config : Option Dict

structure ConditionDoc where
  field : Option String
  op : Option String
  value : Option PyVal
  negate : Option Bool

structure ActionDoc where
  type : Option String
  target : Option (Option String)
  params : Option Dict

structure RuleDoc where
  name : Option String
  trigger : Option TriggerDoc
  conditions : Option (List ConditionDoc)
  actions : Option (List ActionDoc)
  enabled : Option Bool
  priority : Option Int
  description : Option String
  created_at : Option Nat
  last_triggered : Option (Option Nat)
  trigger_count : Option Int

/-- `Trigger(**d)`: `type` is a required argument, `config` defaults. -/
def Trigger.ofDoc (d : TriggerDoc) : Except String Trigger :=
  match d.type with
  | Option.none => Except.error "TypeError: Trigger missing required argument: type"
  | some t => Except.ok { type := t, config := d.config.getD [] }

/-- `Condition(**c)`: `field`, `op`, `value` required; `negate` defaults. -/
def Condition.ofDoc (c : ConditionDoc) : Except String Condition :=
  match c.field, c.op, c.value with
  | some f, some o, some v =>
    Except.ok { field := f, op := o, value := v, negate := c.negate.getD false }
  | _, _, _ => Except.error "TypeError: Condition missing required argument"

/-- `Action(**a)`: `type` required; `target` and `params` default. -/
def Action.ofDoc (a : ActionDoc) : Except String Action :=
  match a.type with
  | Option.none => Except.error "TypeError: Action missing required argument: type"
  | some t =>
    Except.ok { type := t, target := a.target.getD Option.none, params := a.params.getD [] }

/-- The list comprehension `[Condition(**c) for c in ...]`. -/
def parseConditions : List ConditionDoc → Except String (List Condition)
  | [] => Except.ok []
  | c :: cs =>
    match Condition.ofDoc c with
    | Except.error e => Except.error e
    | Except.ok c2 =>
      match parseConditions cs with
      | Except.error e => Except.error e
      | Except.ok cs2 => Except.ok (c2 :: cs2)

/-- The list comprehension `[Action(**a) for a in ...]`. -/
def parseActions : List ActionDoc → Except String (List Action)
  | [] => Except.ok []
  | a :: as_ =>
    match Action.ofDoc a with
    | Except.error e => Except.error e
    | Except.ok a2 =>
      match parseActions as_ with
      | Except.error e => Except.error e
      | Except.ok as2 => Except.ok (a2 :: as2)

/-- `Rule.from_dict`, evaluating the subterms in source order: `d["trigger"]`
first (KeyError when absent), then conditions and actions, then `d["name"]`
(KeyError when absent); optional keys take their documented defaults.
`now` stands for the `datetime.utcnow()` default of `created_at`. -/
def Rule.from_dict (d : RuleDoc) (now : Nat) : Except String Rule :=
  match d.trigger with
  | Option.none => Except.error "KeyError: trigger"
  | some tdoc =>
    match Trigger.ofDoc tdoc with
    | Except.error e => Except.error e
    | Except.ok trigger =>
      match parseConditions (d.conditions.getD []) with
      | Except.error e => Except.error e
      | Except.ok conditions =>
        match parseActions (d.actions.getD []) with
        | Except.error e => Except.error e
        | Except.ok actions =>
          match d.name with
          | Option.none => Except.error "KeyError: name"
          | some name =>
            Except.ok { name := name, trigger := trigger,
                        conditions := conditions, actions := actions,
                        enabled := d.enabled.getD true,
                        priority := d.priority.getD 0,
                        description := d.description.getD "",
                        created_at := d.created_at.getD now,
                        last_triggered := d.last_triggered.getD Option.none,
                        trigger_count := d.trigger_count.getD 0 }

/-- A row of the `rules` table.  `definition` is the stored rule document
(the JSON round trip `Rule.from_dict(json.loads(row["definition"]))` is
modelled as the identity on the persisted rule). -/
structure RuleRow where
  name : String
  definition : Rule
  enabled : Bool
  priority : Int
  created_at : Nat
  last_triggered : Option Nat
  trigger_count : Int

/-- A row of the `executions` table. -/
structure ExecRow where
  rule_name : String
  triggered_by : String
  context : Dict
  result : String
  error : Option String
  ts : Nat
  duration_ms : Nat

/-- A row of the `logs` table. -/
structure LogRow where
  level : String
  message : String
  context : Dict
  ts : Nat

/-- A registered service handler: `(service_name, params) -> result`,
possibly raising. -/
abbrev Handler := String → Dict → Except String PyVal

/-- The state of one `AutomationHub` instance: the three SQLite tables, the
service-handler registry, and a logical clock read by `datetime.utcnow()`. -/
structure HubState where
  rules : List RuleRow
  executions : List ExecRow
  logs : List LogRow
  handlers : List (String × Handler)
  clock : Nat

/-- One `datetime.utcnow()` call: read the clock and advance it. -/
def tick (s : HubState) : HubState :=
  { s with clock := s.clock + 1 }

/-- `AutomationHub._log`: append a row to the `logs` table. -/
def HubState._log (s : HubState) (level message : String) (context : Dict) : HubState :=
  { s with logs := s.logs ++ [{ level := level, message := message,
                                context := context, ts := s.clock }],
           clock := s.clock + 1 }

/-- The row `add_rule` inserts for a rule. -/
def ruleRowOf (r : Rule) : RuleRow :=
  { name := r.name, definition := r, enabled := r.enabled, priority := r.priority,
    created_at := r.created_at, last_triggered := r.last_triggered,
    trigger_count := r.trigger_count }

/-- `AutomationHub.add_rule`: `INSERT OR REPLACE` keyed by the primary key
`name` (the replaced row is re-inserted, hence moves to the end of the
table), then an INFO log line. -/
def add_rule (s : HubState) (rule : Rule) : HubState :=
  let s1 := { s with rules := s.rules.filter (fun (row : RuleRow) => row.name ≠ rule.name)
                              ++ [ruleRowOf rule] }
  s1._log "INFO" ("Rule added: " ++ rule.name) []

/-- `AutomationHub.add_rule_from_json`: parse the document into a `Rule`
(raising before any storage mutation on malformed input), then `add_rule`. -/
def add_rule_from_json (s : HubState) (doc : RuleDoc) : HubState × Except String Rule :=
  match Rule.from_dict doc s.clock with
  | Except.error e => (s, Except.error e)
  | Except.ok rule => (add_rule s rule, Except.ok rule)

/-- `AutomationHub.get_rule`: deserialize the stored definition and override
the mutable columns. -/
def get_rule (s : HubState) (name : String) : Option Rule :=
  (s.rules.find? (fun row => row.name == name)).map (fun (row : RuleRow) =>
    { row.definition with enabled := row.enabled,
                          last_triggered := row.last_triggered,
                          trigger_count := row.trigger_count })

/-- `AutomationHub.enable_rule`: `UPDATE rules SET enabled=1 WHERE name=?`. -/
def enable_rule (s : HubState) (name : String) : HubState :=
  { s with rules := s.rules.map (fun row =>
      if row.name = name then { row with enabled := true } else row) }

/-- `AutomationHub.disable_rule`: `UPDATE rules SET enabled=0 WHERE name=?`. -/
def disable_rule (s : HubState) (name : String) : HubState :=
  { s with rules := s.rules.map (fun row =>
      if row.name = name then { row with enabled := false } else row) }

/-- `AutomationHub.delete_rule`. -/
def delete_rule (s : HubState) (name : String) : HubState :=
  { s with rules := s.rules.filter (fun row => row.name ≠ name) }

/-- Stable insertion of a row into a priority-descending list (models
`ORDER BY priority DESC` over the stored row order). -/
def insertByPriority (row : RuleRow) : List RuleRow → List RuleRow
  | [] => [row]
  | r :: rs =>
    if row.priority > r.priority then row :: r :: rs
    else r :: insertByPriority row rs

def sortByPriorityDesc : List RuleRow → List RuleRow
  | [] => []
  | r :: rs => insertByPriority r (sortByPriorityDesc rs)

/-- The `Rule` object `get_active_rules` builds from a row: the stored
definition with `enabled := true` and the mutable columns overridden. -/
def rowToRule (row : RuleRow) : Rule :=
  { row.definition with enabled := true,
                        last_triggered := row.last_triggered,
                        trigger_count := row.trigger_count }

/-- `AutomationHub.get_active_rules`: enabled rows, priority descending. -/
def get_active_rules (s : HubState) : List Rule :=
  (sortByPriorityDesc (s.rules.filter (fun row => row.enabled))).map rowToRule

/-- The failure description `f"{cond.field} {cond.op} {cond.value}"`. -/
def condDesc (c : Condition) : String :=
  c.field ++ " " ++ c.op ++ " " ++ pyStr c.value

/-- The loop body of `evaluate_rule`: evaluate each condition in order,
collecting a description per failing condition and an `error:` description
per raising condition (the `except` clause). -/
def collectFailures (context : Dict) : List Condition → List String
  | [] => []
  | c :: rest =>
    match c.evaluate context with
    | Except.ok true => collectFailures context rest
    | Except.ok false => condDesc c :: collectFailures context rest
    | Except.error e => ("error: " ++ e) :: collectFailures context rest

/-- `AutomationHub.evaluate_rule`: `(should_run, failed_descriptions)`. -/
def evaluate_rule (rule : Rule) (context : Dict) : Bool × List String :=
  let failed := collectFailures context rule.conditions
  (failed.isEmpty, failed)

/-- The value of `action.target` as the Python object interpolated into the
CALL_SERVICE and SET_STATE results. -/
def targetToVal : Option String → PyVal
  | Option.none => PyVal.none
  | some t => PyVal.str t

/-- `self._service_handlers.get(service)` for `service = action.target`
(a `None` target finds no handler, as `dict.get(None)` does). -/
def getServiceHandler (s : HubState) (target : Option String) : Option Handler :=
  match target with
  | Option.none => Option.none
  | some t => (s.handlers.find? (fun kv => kv.1 == t)).map (fun kv => kv.2)

/-- `AutomationHub.execute_action`: dispatch on the action tag in source
order; an unknown tag raises `ValueError`.  The returned state carries the
side effects performed before the return or raise (only LOG_MESSAGE writes
to the hub's tables). -/
def execute_action (s : HubState) (a : Action) (context : Dict) :
    HubState × Except String PyVal :=
  if a.type = "log_message" then
    let msg := dictGetD a.params "message" (PyVal.str "")
    (s._log "INFO" ("[rule_action] " ++ pyStr msg) context,
     Except.ok (PyVal.dict [("logged", msg)]))
  else if a.type = "send_notify" then
    let channel := dictGetD a.params "channel" (PyVal.str "default")
    let message := dictGetD a.params "message" (PyVal.str "")
    (s, Except.ok (PyVal.dict [("channel", channel), ("message", message)]))
  else if a.type = "set_state" then
    let new_state := dictGet a.params "state"
    (s, Except.ok (PyVal.dict [("entity_id", targetToVal a.target),
                               ("state", new_state)]))
  else if a.type = "call_service" then
    match a.target, getServiceHandler s a.target with
    | some t, some h => (s, h t a.params)
    | tgt, _ =>
      (s, Except.ok (PyVal.dict [("service", targetToVal tgt),
                                 ("status", PyVal.str "no_handler")]))
  else if a.type = "delay" then
    let secs := dictGetD a.params "seconds" (PyVal.int 1)
    (s, Except.ok (PyVal.dict [("delayed", secs)]))
  else if a.type = "run_scene" then
    let scene := dictGet a.params "scene_name"
    (s, Except.ok (PyVal.dict [("scene", scene)]))
  else
    (s, Except.error ("Unknown action type: " ++ a.type))

/-- `AutomationHub.register_service`. -/
def register_service (s : HubState) (name : String) (h : Handler) : HubState :=
  { s with handlers := (name, h) :: s.handlers.filter (fun kv => kv.1 ≠ name) }

/-- The sanitized context `_record_execution` persists (`credentials`
stripped). -/
def sanitize (context : Dict) : Dict :=
  context.filter (fun kv => kv.1 ≠ "credentials")

/-- `AutomationHub._record_execution`: append one row to `executions`. -/
def _record_execution (s : HubState) (rule_name triggered_by : String)
    (context : Dict) (result : String) (error : Option String)
    (duration_ms : Nat) : HubState :=
  { s with executions := s.executions ++
             [{ rule_name := rule_name, triggered_by := triggered_by,
                context := sanitize context, result := result, error := error,
                ts := s.clock, duration_ms := duration_ms }],
           clock := s.clock + 1 }

/-- `AutomationHub._increment_trigger`: `UPDATE rules SET
trigger_count=trigger_count+1, last_triggered=now WHERE name=?`. -/
def _increment_trigger (s : HubState) (rule_name : String) : HubState :=
  { s with rules := s.rules.map (fun row =>
      if row.name = rule_name then
        { row with trigger_count := row.trigger_count + 1,
                   last_triggered := some s.clock }
      else row),
           clock := s.clock + 1 }

/-- The `try: for action in rule.actions: ...` loop of `run_rule_engine`:
execute actions in order, collecting results, stopping at the first raise
(whose results are the ones appended before the raise). -/
def runActions (s : HubState) (actions : List Action) (context : Dict) :
    HubState × List PyVal × Option String :=
  match actions with
  | [] => (s, [], Option.none)
  | a :: rest =>
    match execute_action s a context with
    | (s2, Except.ok res) =>
      let r := runActions s2 rest context
      (r.1, res :: r.2.1, r.2.2)
    | (s2, Except.error e) => (s2, [], some e)

/-- One entry of the list `run_rule_engine` returns: either the skipped dict
`rule/status/failed_conditions` or the dict `rule/status/actions/duration_ms`. -/
inductive ResultEntry where
  | skipped (rule : String) (failed_conditions : List String)
  | finished (rule : String) (status : String) (actions : List PyVal)
             (duration_ms : Nat)

def ResultEntry.ruleOf : ResultEntry → String
  | .skipped r _ => r
  | .finished r _ _ _ => r

def ResultEntry.statusOf : ResultEntry → String
  | .skipped _ _ => "skipped"
  | .finished _ st _ _ => st

def ResultEntry.actionsOf : ResultEntry → Option (List PyVal)
  | .skipped _ _ => Option.none
  | .finished _ _ acts _ => some acts

def ResultEntry.failedOf : ResultEntry → Option (List String)
  | .skipped _ f => some f
  | .finished _ _ _ _ => Option.none

def ResultEntry.durationOf : ResultEntry → Option Nat
  | .skipped _ _ => Option.none
  | .finished _ _ _ d => some d

/-- The body of `run_rule_engine`'s `for rule in rules` loop for one selected
rule: take the start time, evaluate the conditions, either record a skipped
entry (no actions, no execution record, no counter update) or run the
actions, record the execution and bump the trigger counter. -/
def runRuleStep (s : HubState) (rule : Rule) (context : Dict)
    (trigger_type : Option String) : HubState × ResultEntry :=
  let start := s.clock
  let s1 := tick s
  if (evaluate_rule rule context).1 = false then
    (s1, ResultEntry.skipped rule.name (evaluate_rule rule context).2)
  else
    let ra := runActions s1 rule.actions context
    let status := if ra.2.2.isNone then "ok" else "error"
    let duration_ms := ra.1.clock - start
    let s2 := tick ra.1
    let s3 := _record_execution s2 rule.name (trigger_type.getD "manual")
                context status ra.2.2 duration_ms
    let s4 := _increment_trigger s3 rule.name
    (s4, ResultEntry.finished rule.name status ra.2.1 duration_ms)

/-- The `for rule in rules` loop over the selected rules. -/
def runRules (s : HubState) (rules : List Rule) (context : Dict)
    (trigger_type : Option String) : HubState × List ResultEntry :=
  match rules with
  | [] => (s, [])
  | r :: rest =>
    let step := runRuleStep s r context trigger_type
    let tail := runRules step.1 rest context trigger_type
    (tail.1, step.2 :: tail.2)

/-- `AutomationHub.run_rule_engine`: snapshot the active rules, filter by
trigger type when given, then run each selected rule. -/
def run_rule_engine (s : HubState) (context : Dict)
    (trigger_type : Option String) : HubState × List ResultEntry :=
  let rules := get_active_rules s
  let rules :=
    match trigger_type with
    | Option.none => rules
    | some t => rules.filter (fun r => r.trigger.type == t)
  runRules s rules context trigger_type

/-! Concrete fixtures used by witness theorems. -/

def hub0 : HubState :=
  { rules := [], executions := [], logs := [], handlers := [], clock := 0 }

def condHot : Condition :=
  { field := "sensor.t1.value", op := ">", value := PyVal.int 30 }

def ctxHot : Dict :=
  [("sensor", PyVal.dict [("t1", PyVal.dict [("value", PyVal.int 35)])])]

def ctxCold : Dict :=
  [("sensor", PyVal.dict [("t1", PyVal.dict [("value", PyVal.int 20)])])]

def logAction : Action :=
  { type := "log_message", params := [("message", PyVal.str "hot!")] }

def notifyAction : Action := { type := "send_notify" }

def bogusAction : Action := { type := "bogus" }

def unregisteredCall : Action := { type := "call_service", target := some "svc" }

def ruleHot : Rule :=
  { name := "temp_alert", trigger := { type := "sensor" },
    conditions := [condHot], actions := [logAction], priority := 5 }

def ruleFirstFailure : Rule :=
  { name := "ff", trigger := { type := "event" },
    actions := [logAction, bogusAction, notifyAction] }

def ruleAllOk : Rule :=
  { name := "aok", trigger := { type := "event" },
    actions := [logAction, notifyAction] }

def ruleLogThenUnregistered : Rule :=
  { name := "lu", trigger := { type := "event" },
    actions := [logAction, unregisteredCall] }

def rowStored : RuleRow :=
  { name := "temp_alert", definition := ruleHot, enabled := true, priority := 5,
    created_at := 0, last_triggered := some 3, trigger_count := 7 }

def hubStored : HubState := { hub0 with rules := [rowStored] }

def tdocMinimal : TriggerDoc := { type := some "event", config := Option.none }

def docMinimal : RuleDoc :=
  { name := some "json_rule", trigger := some tdocMinimal,
    conditions := Option.none, actions := Option.none, enabled := Option.none,
    priority := Option.none, description := Option.none,
    created_at := Option.none, last_triggered := Option.none,
    trigger_count := Option.none }

def docNoName : RuleDoc := { docMinimal with name := Option.none }

/-- The contribution of one condition to `evaluate_rule`'s failure list:
nothing when it holds, its description when it fails, an `error:` line when
it raises. -/
def condFailureDesc (context : Dict) (c : Condition) : Option String :=
  match c.evaluate context with
  | Except.ok true => Option.none
  | Except.ok false => some (condDesc c)
  | Except.error e => some ("error: " ++ e)

/-! Helper lemmas about the embedding. -/

theorem evaluate_of_resolve_none (c : Condition) (context : Dict)
    (h : _resolve_path c.field context = PyVal.none) :
    c.evaluate context = Except.ok c.negate := by
  unfold Condition.evaluate
  rw [h]

theorem collectFailures_eq_filterMap (context : Dict) (cs : List Condition) :
    collectFailures context cs = cs.filterMap (condFailureDesc context) := by
  induction cs with
  | nil => rfl
  | cons c rest ih =>
    unfold collectFailures
    cases h : c.evaluate context with
    | ok b =>
      cases b <;> simp [h, ih, List.filterMap_cons, condFailureDesc]
    | error e =>
      simp [h, ih, List.filterMap_cons, condFailureDesc]

@[simp] theorem tick_rules (s : HubState) : (tick s).rules = s.rules := rfl

@[simp] theorem tick_executions (s : HubState) :
    (tick s).executions = s.executions := rfl

@[simp] theorem tick_logs (s : HubState) : (tick s).logs = s.logs := rfl

@[simp] theorem tick_handlers (s : HubState) :
    (tick s).handlers = s.handlers := rfl

@[simp] theorem tick_clock (s : HubState) : (tick s).clock = s.clock + 1 := rfl

theorem execute_action_preserves_tables (s : HubState) (a : Action)
    (context : Dict) :
    (execute_action s a context).1.rules = s.rules ∧
    (execute_action s a context).1.executions = s.executions ∧
    (execute_action s a context).1.handlers = s.handlers := by
  unfold execute_action
  repeat' split
  all_goals simp [HubState._log]

theorem runActions_cons_ok {s s2 : HubState} {a : Action} {v : PyVal}
    (rest : List Action) (context : Dict)
    (h : execute_action s a context = (s2, Except.ok v)) :
    runActions s (a :: rest) context
      = ((runActions s2 rest context).1,
         v :: (runActions s2 rest context).2.1,
         (runActions s2 rest context).2.2) := by
  conv_lhs => unfold runActions
  rw [h]

theorem runActions_cons_error {s s2 : HubState} {a : Action} {e : String}
    (rest : List Action) (context : Dict)
    (h : execute_action s a context = (s2, Except.error e)) :
    runActions s (a :: rest) context = (s2, [], some e) := by
  conv_lhs => unfold runActions
  rw [h]

theorem runActions_preserves_tables (s : HubState) (actions : List Action)
    (context : Dict) :
    (runActions s actions context).1.rules = s.rules ∧
    (runActions s actions context).1.executions = s.executions ∧
    (runActions s actions context).1.handlers = s.handlers := by
  induction actions generalizing s with
  | nil => exact ⟨rfl, rfl, rfl⟩
  | cons a rest ih =>
    cases hx : execute_action s a context with
    | mk s2 r =>
      have hp := execute_action_preserves_tables s a context
      rw [hx] at hp
      cases r with
      | ok v =>
        rw [runActions_cons_ok rest context hx]
        exact ⟨(ih s2).1.trans hp.1, (ih s2).2.1.trans hp.2.1,
               (ih s2).2.2.trans hp.2.2⟩
      | error e =>
        rw [runActions_cons_error rest context hx]
        exact hp

theorem runActions_length_of_ok (s : HubState) (actions : List Action)
    (context : Dict) (h : (runActions s actions context).2.2 = Option.none) :
    (runActions s actions context).2.1.length = actions.length := by
  induction actions generalizing s with
  | nil => rfl
  | cons a rest ih =>
    cases hx : execute_action s a context with
    | mk s2 r =>
      cases r with
      | ok v =>
        rw [runActions_cons_ok rest context hx] at h ⊢
        simpa using ih s2 (by simpa using h)
      | error e =>
        rw [runActions_cons_error rest context hx] at h
        simp at h

theorem runActions_append_of_ok (s : HubState) (xs ys : List Action)
    (context : Dict) (h : (runActions s xs context).2.2 = Option.none) :
    runActions s (xs ++ ys) context
      = ((runActions (runActions s xs context).1 ys context).1,
         (runActions s xs context).2.1
           ++ (runActions (runActions s xs context).1 ys context).2.1,
         (runActions (runActions s xs context).1 ys context).2.2) := by
  induction xs generalizing s with
  | nil => simp [runActions]
  | cons a rest ih =>
    cases hx : execute_action s a context with
    | mk s2 r =>
      cases r with
      | ok v =>
        rw [runActions_cons_ok rest context hx] at h
        rw [List.cons_append, runActions_cons_ok (rest ++ ys) context hx,
            runActions_cons_ok rest context hx, ih s2 (by simpa using h)]
        simp
      | error e =>
        rw [runActions_cons_error rest context hx] at h
        simp at h

theorem runRuleStep_skip (s : HubState) (rule : Rule) (context : Dict)
    (tt : Option String) (h : (evaluate_rule rule context).1 = false) :
    runRuleStep s rule context tt
      = (tick s, ResultEntry.skipped rule.name (evaluate_rule rule context).2) := by
  unfold runRuleStep
  simp [h, tick]

theorem runRuleStep_pass (s : HubState) (rule : Rule) (context : Dict)
    (tt : Option String) (h : (evaluate_rule rule context).1 = true) :
    runRuleStep s rule context tt
      = (_increment_trigger
           (_record_execution (tick (runActions (tick s) rule.actions context).1)
             rule.name (tt.getD "manual") context
             (if (runActions (tick s) rule.actions context).2.2.isNone
              then "ok" else "error")
             (runActions (tick s) rule.actions context).2.2
             ((runActions (tick s) rule.actions context).1.clock - s.clock))
           rule.name,
         ResultEntry.finished rule.name
           (if (runActions (tick s) rule.actions context).2.2.isNone
            then "ok" else "error")
           (runActions (tick s) rule.actions context).2.1
           ((runActions (tick s) rule.actions context).1.clock - s.clock)) := by
  unfold runRuleStep
  simp [h, tick]

theorem countP_insertByPriority (p : RuleRow → Bool) (row : RuleRow)
    (l : List RuleRow) :
    (insertByPriority row l).countP p = (row :: l).countP p := by
  induction l with
  | nil => rfl
  | cons r rs ih =>
    unfold insertByPriority
    split
    · rfl
    · simp only [List.countP_cons, ih]
      omega

theorem countP_sortByPriorityDesc (p : RuleRow → Bool) (l : List RuleRow) :
    (sortByPriorityDesc l).countP p = l.countP p := by
  induction l with
  | nil => rfl
  | cons r rs ih =>
    unfold sortByPriorityDesc
    rw [countP_insertByPriority]
    simp only [List.countP_cons, ih]

theorem mem_insertByPriority {x row : RuleRow} {l : List RuleRow} :
    x ∈ insertByPriority row l ↔ x = row ∨ x ∈ l := by
  induction l with
  | nil => simp [insertByPriority]
  | cons r rs ih =>
    unfold insertByPriority
    split
    · simp
    · simp only [List.mem_cons, ih]
      tauto

theorem mem_sortByPriorityDesc {x : RuleRow} {l : List RuleRow} :
    x ∈ sortByPriorityDesc l ↔ x ∈ l := by
  induction l with
  | nil => simp [sortByPriorityDesc]
  | cons r rs ih =>
    unfold sortByPriorityDesc
    simp [mem_insertByPriority, ih]

theorem add_rule_rules (s : HubState) (r : Rule) :
    (add_rule s r).rules
      = s.rules.filter (fun row => row.name ≠ r.name) ++ [ruleRowOf r] := rfl

theorem filter_name_of_replace (rules : List RuleRow) (r : Rule) :
    ((rules.filter (fun row => row.name ≠ r.name)
        ++ [ruleRowOf r]).filter (fun row => row.name = r.name))
      = [ruleRowOf r] := by
  rw [List.filter_append]
  have h1 : (rules.filter (fun row => row.name ≠ r.name)).filter
      (fun row => row.name = r.name) = [] := by
    rw [List.filter_eq_nil_iff]
    intro a ha
    have h2 := (List.mem_filter.mp ha).2
    simp at h2 ⊢
    exact h2
  rw [h1]
  simp [ruleRowOf]

/-! ## The claims -/

/-- Claim C1: for every condition and every context, when resolving the
condition's field path yields the missing marker (`None`),
`Condition.evaluate` returns exactly `condition.negate` — a missing field
makes a normal condition fail and a negated condition pass — and no
exception is raised (the result is `Except.ok`). -/
theorem cond_missing_field_returns_negate (c : Condition) (context : Dict)
    (h : _resolve_path c.field context = PyVal.none) :
    c.evaluate context = Except.ok c.negate :=
  evaluate_of_resolve_none c context h

theorem cond_missing_field_returns_negate_witness :
    _resolve_path "sensor.t1.value" [] = PyVal.none ∧
    Condition.evaluate condHot [] = Except.ok false :=
  ⟨rfl, cond_missing_field_returns_negate condHot [] rfl⟩

/-- Claim C2: `evaluate_rule` evaluates every condition of the rule in order
with no short-circuit (the failure list is the filter-map of the full
condition list), one description per failing or erroring condition; it
returns `passed = true` exactly when the collected failure list is empty;
and an exception raised by a single condition (such as the unknown-operator
`ValueError`) is caught and becomes an `error:` failure description rather
than propagating (`evaluate_rule` is total, and `condFailureDesc` maps the
`Except.error` case to a description). -/
theorem evaluate_rule_no_short_circuit (rule : Rule) (context : Dict) :
    (evaluate_rule rule context).2
      = rule.conditions.filterMap (condFailureDesc context) ∧
    ((evaluate_rule rule context).1 = true ↔ (evaluate_rule rule context).2 = []) ∧
    (∀ c ∈ rule.conditions, ∀ e, c.evaluate context = Except.error e →
      ("error: " ++ e) ∈ (evaluate_rule rule context).2) := by
  refine ⟨collectFailures_eq_filterMap context rule.conditions, ?_, ?_⟩
  · unfold evaluate_rule
    simp [List.isEmpty_iff]
  · intro c hc e he
    unfold evaluate_rule
    simp only [collectFailures_eq_filterMap context rule.conditions]
    refine List.mem_filterMap.mpr ⟨c, hc, ?_⟩
    simp [condFailureDesc, he]

/-- Claim C10: an explicitly null value stored at the condition's field path
is indistinguishable from an absent path: whenever the resolver yields
`None` — whether because the key is absent or because `None` is stored
there — `evaluate` returns `condition.negate` without consulting the
operator, so it returns `negate` even for an unrecognized operator string
and never raises `InvalidOperator` in that case. -/
theorem null_value_indistinguishable_from_missing (c : Condition)
    (ctx ctx2 : Dict)
    (h : _resolve_path c.field ctx = PyVal.none)
    (h2 : _resolve_path c.field ctx2 = PyVal.none) :
    c.evaluate ctx = c.evaluate ctx2 ∧
    c.evaluate ctx = Except.ok c.negate ∧
    (∀ op2 : String, Condition.evaluate { c with op := op2 } ctx
        = Except.ok c.negate) := by
  have e1 := evaluate_of_resolve_none c ctx h
  have e2 := evaluate_of_resolve_none c ctx2 h2
  refine ⟨e1.trans e2.symm, e1, fun op2 => ?_⟩
  exact evaluate_of_resolve_none { c with op := op2 } ctx h

theorem null_value_indistinguishable_from_missing_witness :
    _resolve_path "k" [("k", PyVal.none)] = PyVal.none ∧
    _resolve_path "k" [] = PyVal.none ∧
    (Condition.evaluate { field := "k", op := "zzz", value := PyVal.int 1,
                          negate := true } [("k", PyVal.none)]
      = Except.ok true) :=
  ⟨rfl, rfl,
   (null_value_indistinguishable_from_missing
      { field := "k", op := "zzz", value := PyVal.int 1, negate := true }
      [("k", PyVal.none)] [] rfl rfl).2.1⟩

/-- Claim C3: for a rule whose conditions all pass, the engine step executes
the actions in declared order and stops at the first action that raises
(including the unknown-action-type `ValueError`): the result is identical to
running the rule with the actions after the failure point removed (so they
are never executed), the returned status is `error`, the retained action
results are exactly those produced up to the failure point (one per
successfully executed action — the raising action produces none), and the
recorded execution row carries status `error` with the causing message.  If
every action succeeds the status is `ok`, with one result per action. -/
theorem run_stops_at_first_failing_action :
    (∀ (s : HubState) (rule : Rule) (context : Dict) (tt : Option String)
       (pre post : List Action) (bad : Action) (e : String),
       rule.actions = pre ++ bad :: post →
       (evaluate_rule rule context).1 = true →
       (runActions (tick s) pre context).2.2 = Option.none →
       (execute_action (runActions (tick s) pre context).1 bad context).2
         = Except.error e →
       runRuleStep s rule context tt
         = runRuleStep s { rule with actions := pre ++ [bad] } context tt ∧
       (runRuleStep s rule context tt).2.statusOf = "error" ∧
       (runRuleStep s rule context tt).2.actionsOf
         = some (runActions (tick s) pre context).2.1 ∧
       (runActions (tick s) pre context).2.1.length = pre.length ∧
       (∃ row, (runRuleStep s rule context tt).1.executions
           = s.executions ++ [row] ∧
         row.result = "error" ∧ row.error = some e)) ∧
    (∀ (s : HubState) (rule : Rule) (context : Dict) (tt : Option String),
       (evaluate_rule rule context).1 = true →
       (runActions (tick s) rule.actions context).2.2 = Option.none →
       (runRuleStep s rule context tt).2.statusOf = "ok" ∧
       (runRuleStep s rule context tt).2.actionsOf
         = some (runActions (tick s) rule.actions context).2.1 ∧
       (runActions (tick s) rule.actions context).2.1.length
         = rule.actions.length) := by
  constructor
  · intro s rule context tt pre post bad e hacts hok hpre hbad
    have hx : execute_action (runActions (tick s) pre context).1 bad context
        = ((execute_action (runActions (tick s) pre context).1 bad context).1,
           Except.error e) := by
      rw [← hbad]
    have hbadpost :
        runActions (runActions (tick s) pre context).1 (bad :: post) context
          = ((execute_action (runActions (tick s) pre context).1 bad context).1,
             [], some e) := runActions_cons_error post context hx
    have hbadonly :
        runActions (runActions (tick s) pre context).1 [bad] context
          = ((execute_action (runActions (tick s) pre context).1 bad context).1,
             [], some e) := runActions_cons_error [] context hx
    have hfull : runActions (tick s) rule.actions context
        = ((execute_action (runActions (tick s) pre context).1 bad context).1,
           (runActions (tick s) pre context).2.1, some e) := by
      rw [hacts, runActions_append_of_ok _ _ _ _ hpre, hbadpost]
      simp
    have hcutacts : ({ rule with actions := pre ++ [bad] } : Rule).actions
        = pre ++ [bad] := rfl
    have hcut : runActions (tick s)
          ({ rule with actions := pre ++ [bad] } : Rule).actions context
        = ((execute_action (runActions (tick s) pre context).1 bad context).1,
           (runActions (tick s) pre context).2.1, some e) := by
      rw [hcutacts, runActions_append_of_ok _ _ _ _ hpre, hbadonly]
      simp
    have hok2 : (evaluate_rule ({ rule with actions := pre ++ [bad] } : Rule)
        context).1 = true := hok
    have e1 := runRuleStep_pass s rule context tt hok
    have e2 := runRuleStep_pass s { rule with actions := pre ++ [bad] }
        context tt hok2
    rw [hfull] at e1
    rw [hcut] at e2
    simp only at e1 e2
    have hexecs : (execute_action (runActions (tick s) pre context).1 bad
        context).1.executions = s.executions := by
      have p1 := (execute_action_preserves_tables
        (runActions (tick s) pre context).1 bad context).2.1
      have p2 := (runActions_preserves_tables (tick s) pre context).2.1
      rw [hx] at p1
      exact p1.trans p2
    refine ⟨e1.trans e2.symm, by simp [e1, ResultEntry.statusOf],
            by simp [e1, ResultEntry.actionsOf],
            runActions_length_of_ok _ _ _ hpre, ?_⟩
    refine ⟨{ rule_name := rule.name, triggered_by := tt.getD "manual",
              context := sanitize context, result := "error", error := some e,
              ts := (execute_action (runActions (tick s) pre context).1 bad
                       context).1.clock + 1,
              duration_ms := (execute_action (runActions (tick s) pre
                       context).1 bad context).1.clock - s.clock },
            ?_, rfl, rfl⟩
    rw [e1]
    simp [_increment_trigger, _record_execution, hexecs]
  · intro s rule context tt hok hnone
    have e1 := runRuleStep_pass s rule context tt hok
    rw [hnone] at e1
    simp only [Option.isNone_none, if_true] at e1
    exact ⟨by simp [e1, ResultEntry.statusOf],
           by simp [e1, ResultEntry.actionsOf],
           runActions_length_of_ok _ _ _ hnone⟩

theorem run_stops_at_first_failing_action_witness :
    ruleFirstFailure.actions = [logAction] ++ bogusAction :: [notifyAction] ∧
    (evaluate_rule ruleFirstFailure []).1 = true ∧
    (runRuleStep hub0 ruleFirstFailure [] Option.none).2.statusOf = "error" ∧
    (runRuleStep hub0 ruleFirstFailure [] Option.none).2.actionsOf
      = some (runActions (tick hub0) [logAction] []).2.1 ∧
    (runRuleStep hub0 ruleAllOk [] Option.none).2.statusOf = "ok" :=
  ⟨rfl, rfl,
   (run_stops_at_first_failing_action.1 hub0 ruleFirstFailure [] Option.none
      [logAction] [notifyAction] bogusAction "Unknown action type: bogus"
      rfl rfl rfl rfl).2.1,
   (run_stops_at_first_failing_action.1 hub0 ruleFirstFailure [] Option.none
      [logAction] [notifyAction] bogusAction "Unknown action type: bogus"
      rfl rfl rfl rfl).2.2.1,
   (run_stops_at_first_failing_action.2 hub0 ruleAllOk [] Option.none
      rfl rfl).1⟩

/-- Claim C4: for a selected rule with at least one failing condition, the
engine step records a `skipped` entry carrying the failure descriptions,
leaves the rules table (trigger count, last-triggered), the executions table
and the logs table untouched, and never consults the rule's actions (the
step is identical to running the rule with no actions at all). -/
theorem run_skipped_rule_has_no_effects (s : HubState) (rule : Rule)
    (context : Dict) (tt : Option String)
    (h : (evaluate_rule rule context).2 ≠ []) :
    (runRuleStep s rule context tt).2
      = ResultEntry.skipped rule.name (evaluate_rule rule context).2 ∧
    (runRuleStep s rule context tt).1.rules = s.rules ∧
    (runRuleStep s rule context tt).1.executions = s.executions ∧
    (runRuleStep s rule context tt).1.logs = s.logs ∧
    runRuleStep s rule context tt
      = runRuleStep s { rule with actions := [] } context tt := by
  have h1 : (evaluate_rule rule context).1 = false := by
    unfold evaluate_rule at h ⊢
    cases hc : collectFailures context rule.conditions with
    | nil => simp [hc] at h
    | cons x xs => simp [hc]
  have e1 := runRuleStep_skip s rule context tt h1
  have h1b : (evaluate_rule ({ rule with actions := [] } : Rule) context).1
      = false := h1
  have e2 := runRuleStep_skip s { rule with actions := [] } context tt h1b
  exact ⟨by rw [e1], by rw [e1]; rfl, by rw [e1]; rfl, by rw [e1]; rfl,
         e1.trans e2.symm⟩

theorem run_skipped_rule_has_no_effects_witness :
    (evaluate_rule ruleHot ctxCold).2 ≠ [] ∧
    (runRuleStep hubStored ruleHot ctxCold (some "sensor")).2
      = ResultEntry.skipped ruleHot.name (evaluate_rule ruleHot ctxCold).2 ∧
    (runRuleStep hubStored ruleHot ctxCold (some "sensor")).1.rules
      = hubStored.rules ∧
    (runRuleStep hubStored ruleHot ctxCold (some "sensor")).1.executions
      = hubStored.executions :=
  ⟨by decide,
   (run_skipped_rule_has_no_effects hubStored ruleHot ctxCold (some "sensor")
      (by decide)).1,
   (run_skipped_rule_has_no_effects hubStored ruleHot ctxCold (some "sensor")
      (by decide)).2.1,
   (run_skipped_rule_has_no_effects hubStored ruleHot ctxCold (some "sensor")
      (by decide)).2.2.1⟩

/-- Claim C5: for a selected rule whose conditions all pass, the engine step
appends exactly one execution record carrying the rule name, the trigger
label (or "manual" when no trigger type was given), the sanitized context,
the status (`ok` or `error`, never `skipped`), the error if any and the
duration; and it updates the rules table by incrementing the trigger count
of the rows named after the rule by one while setting their last-triggered
timestamp to the current time. -/
theorem run_pass_records_and_increments (s : HubState) (rule : Rule)
    (context : Dict) (tt : Option String)
    (h : (evaluate_rule rule context).1 = true) :
    ∃ ts dur t,
      (runRuleStep s rule context tt).1.executions
        = s.executions
          ++ [{ rule_name := rule.name, triggered_by := tt.getD "manual",
                context := sanitize context,
                result := (runRuleStep s rule context tt).2.statusOf,
                error := (runActions (tick s) rule.actions context).2.2,
                ts := ts, duration_ms := dur }] ∧
      (runRuleStep s rule context tt).2.durationOf = some dur ∧
      ((runRuleStep s rule context tt).2.statusOf = "ok" ∨
       (runRuleStep s rule context tt).2.statusOf = "error") ∧
      (runRuleStep s rule context tt).1.rules
        = s.rules.map (fun row =>
            if row.name = rule.name then
              { row with trigger_count := row.trigger_count + 1,
                         last_triggered := some t }
            else row) := by
  have e1 := runRuleStep_pass s rule context tt h
  have hexecs : (runActions (tick s) rule.actions context).1.executions
      = s.executions := (runActions_preserves_tables (tick s) rule.actions
        context).2.1
  have hrules : (runActions (tick s) rule.actions context).1.rules
      = s.rules := (runActions_preserves_tables (tick s) rule.actions
        context).1
  refine ⟨(runActions (tick s) rule.actions context).1.clock + 1,
          (runActions (tick s) rule.actions context).1.clock - s.clock,
          (runActions (tick s) rule.actions context).1.clock + 1 + 1,
          ?_, ?_, ?_, ?_⟩
  · rw [e1]
    simp [_increment_trigger, _record_execution, hexecs,
          ResultEntry.statusOf]
  · rw [e1]
    rfl
  · rw [e1]
    cases hb : (runActions (tick s) rule.actions context).2.2 with
    | none => left; simp [hb, ResultEntry.statusOf]
    | some e => right; simp [hb, ResultEntry.statusOf]
  · rw [e1]
    simp [_increment_trigger, _record_execution, hrules]

theorem run_pass_records_and_increments_witness :
    (evaluate_rule ruleHot ctxHot).1 = true ∧
    (∃ ts dur t,
      (runRuleStep hubStored ruleHot ctxHot (some "sensor")).1.executions
        = hubStored.executions
          ++ [{ rule_name := ruleHot.name, triggered_by := (some "sensor").getD "manual",
                context := sanitize ctxHot,
                result := (runRuleStep hubStored ruleHot ctxHot (some "sensor")).2.statusOf,
                error := (runActions (tick hubStored) ruleHot.actions ctxHot).2.2,
                ts := ts, duration_ms := dur }] ∧
      (runRuleStep hubStored ruleHot ctxHot (some "sensor")).2.durationOf = some dur ∧
      ((runRuleStep hubStored ruleHot ctxHot (some "sensor")).2.statusOf = "ok" ∨
       (runRuleStep hubStored ruleHot ctxHot (some "sensor")).2.statusOf = "error") ∧
      (runRuleStep hubStored ruleHot ctxHot (some "sensor")).1.rules
        = hubStored.rules.map (fun row =>
            if row.name = ruleHot.name then
              { row with trigger_count := row.trigger_count + 1,
                         last_triggered := some t }
            else row)) :=
  ⟨rfl, run_pass_records_and_increments hubStored ruleHot ctxHot
          (some "sensor") rfl⟩

theorem from_dict_error_of_missing (d : RuleDoc) (now : Nat)
    (h : d.name = Option.none ∨ d.trigger = Option.none) :
    ∃ e, Rule.from_dict d now = Except.error e := by
  unfold Rule.from_dict
  rcases h with hn | ht
  · repeat' split
    all_goals first
      | exact ⟨_, rfl⟩
      | simp_all
  · rw [ht]
    exact ⟨_, rfl⟩

/-- Claim C6: adding a rule is an idempotent replace keyed by name: after
one add the rows named after the rule are exactly the inserted row; adding
the same rule again leaves exactly that one row (no duplicate); and when
the rule is enabled the active-rule listing contains exactly one entry for
that name after importing it twice.  The hypothesis states the rules-table
invariant that each row's stored definition carries the row's name (as the
SQLite schema guarantees, `name` being copied from the definition at every
insert). -/
theorem add_rule_is_idempotent_replace (s : HubState) (r : Rule)
    (hc : ∀ row ∈ s.rules, row.definition.name = row.name) :
    ((add_rule s r).rules.filter (fun row => row.name = r.name))
      = [ruleRowOf r] ∧
    ((add_rule (add_rule s r) r).rules.filter (fun row => row.name = r.name))
      = [ruleRowOf r] ∧
    (r.enabled = true →
      ((get_active_rules (add_rule (add_rule s r) r)).filter
         (fun q => q.name = r.name)).length = 1) := by
  refine ⟨?_, ?_, ?_⟩
  · rw [add_rule_rules]
    exact filter_name_of_replace s.rules r
  · rw [add_rule_rules]
    exact filter_name_of_replace (add_rule s r).rules r
  · intro hen
    rw [← List.countP_eq_length_filter]
    unfold get_active_rules
    rw [List.countP_map, countP_sortByPriorityDesc, List.countP_filter,
        add_rule_rules, add_rule_rules, List.filter_append,
        List.countP_append]
    have hnil : List.filter (fun row => decide (row.name ≠ r.name))
        [ruleRowOf r] = [] := by simp [ruleRowOf]
    rw [hnil, List.append_nil]
    have h0 : (List.filter (fun row => decide (row.name ≠ r.name))
        (List.filter (fun row => decide (row.name ≠ r.name)) s.rules)).countP
        (fun a => ((fun q => decide (q.name = r.name)) ∘ rowToRule) a
          && a.enabled) = 0 := by
      rw [List.countP_eq_zero]
      intro a ha
      have ha1 := List.mem_filter.mp ha
      have ha2 := List.mem_filter.mp ha1.1
      have hdef := hc a ha2.1
      have hne : ¬ a.name = r.name := by simpa using ha1.2
      simp [Function.comp, rowToRule, hdef, hne]
    rw [h0]
    simp [Function.comp, rowToRule, ruleRowOf, hen]

theorem add_rule_is_idempotent_replace_witness :
    ((add_rule hub0 ruleHot).rules.filter
        (fun row => row.name = ruleHot.name)) = [ruleRowOf ruleHot] ∧
    ((add_rule (add_rule hub0 ruleHot) ruleHot).rules.filter
        (fun row => row.name = ruleHot.name)) = [ruleRowOf ruleHot] ∧
    ((get_active_rules (add_rule (add_rule hub0 ruleHot) ruleHot)).filter
        (fun q => q.name = ruleHot.name)).length = 1 :=
  ⟨(add_rule_is_idempotent_replace hub0 ruleHot (by simp [hub0])).1,
   (add_rule_is_idempotent_replace hub0 ruleHot (by simp [hub0])).2.1,
   (add_rule_is_idempotent_replace hub0 ruleHot (by simp [hub0])).2.2 rfl⟩

/-- Claim C7: for a stored rule, disabling removes it from the active-rule
listing; re-enabling changes only the enabled flag of the rows of that name
(executions history and logs untouched, every other column of every row
unchanged), and the re-enabled rule reappears in the active listing with
its trigger count and last-triggered timestamp identical to the stored
values before the disable.  The consistency hypothesis is the same table
invariant as for the add-rule claim. -/
theorem disable_enable_round_trip (s : HubState) (nm : String)
    (row : RuleRow) (hmem : row ∈ s.rules) (hname : row.name = nm)
    (hc : ∀ q ∈ s.rules, q.definition.name = q.name) :
    ((get_active_rules (disable_rule s nm)).filter (fun q => q.name = nm))
      = [] ∧
    (enable_rule (disable_rule s nm) nm).executions = s.executions ∧
    (enable_rule (disable_rule s nm) nm).logs = s.logs ∧
    (enable_rule (disable_rule s nm) nm).rules
      = s.rules.map (fun q =>
          if q.name = nm then { q with enabled := true } else q) ∧
    (∃ q ∈ get_active_rules (enable_rule (disable_rule s nm) nm),
       q.name = nm ∧ q.trigger_count = row.trigger_count ∧
       q.last_triggered = row.last_triggered) := by
  have hrules : (enable_rule (disable_rule s nm) nm).rules
      = s.rules.map (fun q =>
          if q.name = nm then { q with enabled := true } else q) := by
    unfold enable_rule disable_rule
    simp only [List.map_map]
    apply List.map_congr_left
    intro q _
    by_cases hqn : q.name = nm
    · simp [Function.comp, hqn]
    · simp [Function.comp, hqn]
  refine ⟨?_, rfl, rfl, hrules, ?_⟩
  · rw [List.filter_eq_nil_iff]
    intro a ha
    unfold get_active_rules at ha
    rcases List.mem_map.mp ha with ⟨rr, hrr, hval⟩
    have hrr2 : rr ∈ (disable_rule s nm).rules.filter
        (fun q => q.enabled) := mem_sortByPriorityDesc.mp hrr
    have hrr3 := List.mem_filter.mp hrr2
    unfold disable_rule at hrr3
    rcases List.mem_map.mp hrr3.1 with ⟨q, hq, hqval⟩
    by_cases hqn : q.name = nm
    · rw [← hqval] at hrr3
      simp [hqn] at hrr3
    · have hdef := hc q hq
      rw [← hval, ← hqval]
      simp [rowToRule, hqn, hdef]
  · refine ⟨rowToRule { row with enabled := true }, ?_, ?_, rfl, rfl⟩
    · unfold get_active_rules
      apply List.mem_map_of_mem
      apply mem_sortByPriorityDesc.mpr
      apply List.mem_filter.mpr
      refine ⟨?_, rfl⟩
      rw [hrules]
      have := List.mem_map_of_mem (fun q =>
        if q.name = nm then { q with enabled := true } else q) hmem
      simpa [hname] using this
    · have hdef := hc row hmem
      simp [rowToRule, hdef, hname]

theorem disable_enable_round_trip_witness :
    rowStored ∈ hubStored.rules ∧
    ((get_active_rules (disable_rule hubStored "temp_alert")).filter
        (fun q => q.name = "temp_alert")) = [] ∧
    (enable_rule (disable_rule hubStored "temp_alert") "temp_alert").executions
      = hubStored.executions ∧
    (∃ q ∈ get_active_rules
         (enable_rule (disable_rule hubStored "temp_alert") "temp_alert"),
       q.name = "temp_alert" ∧ q.trigger_count = rowStored.trigger_count ∧
       q.last_triggered = rowStored.last_triggered) := by
  have hmem : rowStored ∈ hubStored.rules := by
    simp [hubStored, hub0]
  have hc : ∀ q ∈ hubStored.rules, q.definition.name = q.name := by
    intro q hq
    have hq2 : q = rowStored := by simpa [hubStored, hub0] using hq
    subst hq2
    rfl
  have h := disable_enable_round_trip hubStored "temp_alert" rowStored
    hmem rfl hc
  exact ⟨hmem, h.1, h.2.1, h.2.2.2.2⟩

/-- Claim C8: importing a rule document missing the required `name` or
`trigger` key fails with an error and leaves the hub state completely
unchanged (no storage mutation happens before the failure); a document
carrying only `name` and a trigger with its `type` imports successfully
with the documented defaults enabled=true, priority=0 and empty condition
and action lists, and is then stored via the ordinary add. -/
theorem rule_import_fails_fast :
    (∀ (s : HubState) (doc : RuleDoc),
       doc.name = Option.none ∨ doc.trigger = Option.none →
       (∃ e, (add_rule_from_json s doc).2 = Except.error e) ∧
       (add_rule_from_json s doc).1 = s) ∧
    (∀ (s : HubState) (n ty : String),
       ∃ r, (add_rule_from_json s
           { name := some n,
             trigger := some { type := some ty, config := Option.none },
             conditions := Option.none, actions := Option.none,
             enabled := Option.none, priority := Option.none,
             description := Option.none, created_at := Option.none,
             last_triggered := Option.none,
             trigger_count := Option.none }).2 = Except.ok r ∧
         r.enabled = true ∧ r.priority = 0 ∧ r.conditions = [] ∧
         r.actions = [] ∧
         (add_rule_from_json s
           { name := some n,
             trigger := some { type := some ty, config := Option.none },
             conditions := Option.none, actions := Option.none,
             enabled := Option.none, priority := Option.none,
             description := Option.none, created_at := Option.none,
             last_triggered := Option.none,
             trigger_count := Option.none }).1 = add_rule s r) := by
  constructor
  · intro s doc h
    obtain ⟨e, he⟩ := from_dict_error_of_missing doc s.clock h
    constructor
    · refine ⟨e, ?_⟩
      unfold add_rule_from_json
      rw [he]
    · unfold add_rule_from_json
      rw [he]
  · intro s n ty
    exact ⟨{ name := n, trigger := { type := ty }, created_at := s.clock },
           rfl, rfl, rfl, rfl, rfl, rfl⟩

theorem rule_import_fails_fast_witness :
    docNoName.name = Option.none ∧
    (∃ e, (add_rule_from_json hub0 docNoName).2 = Except.error e) ∧
    (add_rule_from_json hub0 docNoName).1 = hub0 ∧
    (∃ r, (add_rule_from_json hub0 docMinimal).2 = Except.ok r ∧
       r.enabled = true ∧ r.priority = 0 ∧ r.conditions = [] ∧
       r.actions = [] ∧
       (add_rule_from_json hub0 docMinimal).1 = add_rule hub0 r) :=
  ⟨rfl,
   (rule_import_fails_fast.1 hub0 docNoName (Or.inl rfl)).1,
   (rule_import_fails_fast.1 hub0 docNoName (Or.inl rfl)).2,
   rule_import_fails_fast.2 hub0 "json_rule" "event"⟩

/-- Claim C9: a CALL_SERVICE action whose target has no handler registered
does not fail: `execute_action` returns a `no_handler` status result and
leaves the state untouched; consequently a rule with actions
[LOG_MESSAGE, CALL_SERVICE(unregistered)] executes both actions and
finishes with overall status `ok`, the second action result being the
`no_handler` dict. -/
theorem call_service_without_handler_is_nonfatal :
    (∀ (s : HubState) (a : Action) (context : Dict),
       a.type = "call_service" →
       getServiceHandler s a.target = Option.none →
       execute_action s a context
         = (s, Except.ok (PyVal.dict [("service", targetToVal a.target),
                                      ("status", PyVal.str "no_handler")]))) ∧
    ((runRuleStep hub0 ruleLogThenUnregistered [] Option.none).2.statusOf
       = "ok" ∧
     (runRuleStep hub0 ruleLogThenUnregistered [] Option.none).2.actionsOf
       = some [PyVal.dict [("logged", PyVal.str "hot!")],
               PyVal.dict [("service", PyVal.str "svc"),
                           ("status", PyVal.str "no_handler")]]) := by
  constructor
  · intro s a context htype hnone
    unfold execute_action
    rw [htype]
    cases hat : a.target with
    | none =>
      rw [hat] at hnone
      simp [hnone, targetToVal]
    | some t =>
      rw [hat] at hnone
      simp [hnone, targetToVal]
  · exact ⟨rfl, rfl⟩

theorem call_service_without_handler_is_nonfatal_witness :
    unregisteredCall.type = "call_service" ∧
    getServiceHandler hub0 unregisteredCall.target = Option.none ∧
    execute_action hub0 unregisteredCall []
      = (hub0, Except.ok (PyVal.dict
          [("service", targetToVal unregisteredCall.target),
           ("status", PyVal.str "no_handler")])) :=
  ⟨rfl, rfl,
   call_service_without_handler_is_nonfatal.1 hub0 unregisteredCall [] rfl rfl⟩

end AutomationHub
